import Mathlib

/-!
Shallow embedding of the `@workflow/world-cloudflare` storage/queue/stream core
(`packages/world-cloudflare/src/storage.ts`, `queue.ts`, `streamer.ts`) and
proofs about it.

Modelling conventions:
* D1/SQLite tables are `List` of row structures in insertion (rowid) order;
  `SELECT ... WHERE ... ORDER BY ... LIMIT n` is `filter`, then a sort by the
  ordered column, then `take n`.  TEXT columns compare lexicographically, which
  we express on the `List Char` data of a `String` (Mathlib's lexicographic
  linear order on lists).
* `new Date()` timestamps are a `now : Nat` argument threaded into each
  mutating operation.
* Thrown `WorkflowAPIError`s are an `Except` error branch; mutating operations
  return the error-or-row together with the post-call table.
* JavaScript truthiness in the `map(obj, fn)` helper of `storage.ts` is
  modelled for string arguments (the empty string is falsy, so the
  corresponding SQL predicate is dropped).
* The `compact` helper (not part of the sources) only strips `null` fields
  from returned rows; rows here carry `Option` fields, so it is the identity
  and is not modelled separately.
-/

namespace WorkflowCF

/-- Status union of a workflow run (`workflow_runs.status`). -/
inductive RunStatus where
  | pending | running | paused | completed | failed | cancelled
deriving DecidableEq, Repr

/-- Row of the `workflow_runs` table (see migration `0000_flaky_human_torch.sql`):
ids and serialized JSON payloads are strings, timestamps are integers. -/
structure Run where
  runId : String
  workflowName : String
  status : RunStatus
  input : String
  output : Option String
  executionContext : Option String
  deploymentId : String
  error : Option String
  errorCode : Option String
  createdAt : Nat
  updatedAt : Nat
  startedAt : Option Nat
  completedAt : Option Nat
deriving DecidableEq, Repr

/-- Row of the `workflow_events` table. -/
structure Event where
  eventId : String
  runId : String
  correlationId : Option String
  eventType : String
  eventData : Option String
  createdAt : Nat
deriving DecidableEq, Repr

/-- Sort direction accepted by the list calls. -/
inductive SortOrder where
  | asc | desc
deriving DecidableEq, Repr

/-- Pagination parameters `{limit?, cursor?, sortOrder?}` accepted by every list call. -/
structure Pagination where
  limit : Option Nat := none
  cursor : Option String := none
  sortOrder : Option SortOrder := none
deriving DecidableEq, Repr

/-- Response shape `{data, cursor, hasMore}` of every list call. -/
structure PaginatedResponse (α : Type) where
  data : List α
  cursor : Option String
  hasMore : Bool
deriving DecidableEq, Repr

/-- Parameters of `createRunsStorage.list`. -/
structure ListRunsParams where
  workflowName : Option String := none
  status : Option RunStatus := none
  pagination : Option Pagination := none
deriving DecidableEq, Repr

/-- Parameters of `createEventsStorage.list`. -/
structure ListEventsParams where
  runId : String
  pagination : Option Pagination := none
deriving DecidableEq, Repr

/-- Thrown `WorkflowAPIError(message, {status})`. -/
structure WorkflowAPIError where
  message : String
  status : Nat
deriving DecidableEq, Repr

/-- JavaScript truthiness of an optional string, as used by the `map(obj, fn)`
helper in `storage.ts`: `undefined` and the empty string are falsy. -/
def jsStr : Option String → Option String
  | none => none
  | some s => if s = "" then none else some s

/-- Lexicographic strict order on TEXT column values, used by the SQL `lt`
comparator and `ORDER BY ... DESC` on id columns. -/
def textLt (a b : String) : Prop := a.data < b.data

instance : DecidableRel textLt := fun a b =>
  inferInstanceAs (Decidable (a.data < b.data))

/-- Descending comparison on run ids (`orderBy(desc(runs.runId))`). -/
def runDescLe (a b : Run) : Prop := b.runId.data ≤ a.runId.data

instance : DecidableRel runDescLe := fun a b =>
  inferInstanceAs (Decidable (b.runId.data ≤ a.runId.data))

instance : IsTotal Run runDescLe := ⟨fun a b => (le_total b.runId.data a.runId.data)⟩

instance : IsTrans Run runDescLe := ⟨fun _ _ _ h1 h2 => le_trans h2 h1⟩

/-- Strict version of `runDescLe`; with distinct ids a sorted table is
strictly descending. -/
def runDescLt (a b : Run) : Prop := b.runId.data < a.runId.data

instance : IsAntisymm Run runDescLt :=
  ⟨fun _ _ h1 h2 => absurd h1 (lt_asymm h2)⟩

/-- WHERE clause of `createRunsStorage.list`:
`and(map(cursor, lt runId), map(workflowName, eq), map(status, eq))`. -/
def runWhere (cursor workflowName : Option String) (status : Option RunStatus)
    (r : Run) : Bool :=
  (match jsStr cursor with
    | none => true
    | some c => decide (textLt r.runId c)) &&
  (match jsStr workflowName with
    | none => true
    | some w => r.workflowName == w) &&
  (match status with
    | none => true
    | some s => r.status == s)

/-- Matching rows of a `runs.list` query, ordered as the query orders them:
filtered by the WHERE clause, then sorted newest-id-first. -/
def runsMatching (db : List Run) (p : ListRunsParams) : List Run :=
  List.insertionSort runDescLe
    (db.filter (runWhere (p.pagination.bind Pagination.cursor) p.workflowName p.status))

/-- `createRunsStorage.list`: fetch `limit + 1` matching rows ordered by id
descending, return the first `limit` as the page, `hasMore` when the extra row
was fetched, cursor = id of the last row of the page (`values.at(-1)?.runId ?? null`). -/
def runsList (db : List Run) (p : ListRunsParams) : PaginatedResponse Run :=
  let limit := (p.pagination.bind Pagination.limit).getD 20
  let all := (runsMatching db p).take (limit + 1)
  let values := all.take limit
  { data := values
    cursor := values.getLast?.map Run.runId
    hasMore := decide (limit < all.length) }

/-- Repeated forward pagination through `runs.list`: call `list` with the fixed
`limit`, feed the returned cursor into the next call while `hasMore` is true,
and concatenate the pages.  `fuel` bounds the number of calls. -/
def runsPaginate (db : List Run) (limit : Nat) : Nat → Option String → List Run
  | 0, _ => []
  | fuel + 1, cursor =>
    let page := runsList db ⟨none, none, some ⟨some limit, cursor, none⟩⟩
    if page.hasMore then page.data ++ runsPaginate db limit fuel page.cursor
    else page.data

/-- First row of `SELECT * FROM workflow_runs WHERE id = ? LIMIT 1`. -/
def runsLookup (db : List Run) (id : String) : Option Run :=
  (db.filter (fun r => r.runId == id)).head?

/-- Drizzle `UPDATE ... SET ... WHERE pred RETURNING *` followed by taking the
first returned row: every matching row is rewritten by `f`, and the first
matching row (in table order), rewritten, is returned. -/
def updateWhere (db : List Run) (pred : Run → Bool) (f : Run → Run) :
    List Run × Option Run :=
  (db.map fun r => if pred r then f r else r, ((db.filter pred).head?).map f)

/-- `createRunsStorage.get`. -/
def runsGet (db : List Run) (id : String) : Except WorkflowAPIError Run :=
  match runsLookup db id with
  | none => .error ⟨s!"Run not found: {id}", 404⟩
  | some r => .ok r

/-- `createRunsStorage.cancel`: unconditionally sets `status := cancelled` and
`completedAt := new Date()` on the row with the given id; 404 when no row. -/
def runsCancel (db : List Run) (id : String) (now : Nat) :
    Except WorkflowAPIError Run × List Run :=
  let res := updateWhere db (fun r => r.runId == id)
    (fun r => { r with status := .cancelled, completedAt := some now })
  match res.2 with
  | none => (.error ⟨s!"Run not found: {id}", 404⟩, res.1)
  | some v => (.ok v, res.1)

/-- `createRunsStorage.pause`: unconditionally sets `status := paused`. -/
def runsPause (db : List Run) (id : String) :
    Except WorkflowAPIError Run × List Run :=
  let res := updateWhere db (fun r => r.runId == id)
    (fun r => { r with status := .paused })
  match res.2 with
  | none => (.error ⟨s!"Run not found: {id}", 404⟩, res.1)
  | some v => (.ok v, res.1)

/-- `createRunsStorage.resume`: conditional update
`SET status = running WHERE id = ? AND status = 'paused'`; when zero rows are
affected a 404 `Paused run not found` error is thrown. -/
def runsResume (db : List Run) (id : String) :
    Except WorkflowAPIError Run × List Run :=
  let res := updateWhere db (fun r => r.runId == id && r.status == .paused)
    (fun r => { r with status := .running })
  match res.2 with
  | none => (.error ⟨s!"Paused run not found: {id}", 404⟩, res.1)
  | some v => (.ok v, res.1)

/-- Partial update payload of `createRunsStorage.update`; drizzle `.set` skips
`undefined` (`none`) columns. -/
structure UpdateRunData where
  status : Option RunStatus := none
  output : Option String := none
  error : Option String := none
  errorCode : Option String := none
deriving DecidableEq, Repr

/-- Column rewrite performed by `createRunsStorage.update` on each matched row:
the spread `{...data, output: data.output}` plus the derived `startedAt`
(only when transitioning to `running` with `startedAt` still unset on the
previously fetched row `cur`) and `completedAt` (whenever the new status is
terminal). -/
def applyRunUpdate (cur : Run) (d : UpdateRunData) (now : Nat) (r : Run) : Run :=
  let r1 := { r with
    status := d.status.getD r.status
    output := match d.output with | none => r.output | some o => some o
    error := match d.error with | none => r.error | some e => some e
    errorCode := match d.errorCode with | none => r.errorCode | some e => some e }
  let r2 :=
    if d.status == some .running && cur.startedAt == none then
      { r1 with startedAt := some now }
    else r1
  if d.status == some .completed || d.status == some .failed
      || d.status == some .cancelled then
    { r2 with completedAt := some now }
  else r2

/-- `createRunsStorage.update`: fetches the current row (404 when absent),
derives `startedAt`/`completedAt` from it, then updates by id. -/
def runsUpdate (db : List Run) (id : String) (d : UpdateRunData) (now : Nat) :
    Except WorkflowAPIError Run × List Run :=
  match runsLookup db id with
  | none => (.error ⟨s!"Run not found: {id}", 404⟩, db)
  | some cur =>
    let res := updateWhere db (fun r => r.runId == id) (applyRunUpdate cur d now)
    match res.2 with
    | none => (.error ⟨s!"Run not found: {id}", 404⟩, res.1)
    | some v => (.ok v, res.1)

/-- Creation payload of `createRunsStorage.create`. -/
structure CreateRunData where
  workflowName : String
  input : String
  executionContext : Option String := none
  deploymentId : String
deriving DecidableEq, Repr

/-- `createRunsStorage.create`: inserts a `pending` row under a fresh id
`wrun_<ulid>` with `ON CONFLICT DO NOTHING`; when the insert conflicts no row
is returned and a 409 is thrown.  The monotonic ulid value is the `genId`
argument. -/
def runsCreate (db : List Run) (genId : String) (data : CreateRunData)
    (now : Nat) : Except WorkflowAPIError Run × List Run :=
  let runId := "wrun_" ++ genId
  if db.any (fun r => r.runId == runId) then
    (.error ⟨s!"Run {runId} already exists", 409⟩, db)
  else
    let row : Run :=
      { runId := runId
        workflowName := data.workflowName
        status := .pending
        input := data.input
        output := none
        executionContext := data.executionContext
        deploymentId := data.deploymentId
        error := none
        errorCode := none
        createdAt := now
        updatedAt := now
        startedAt := none
        completedAt := none }
    (.ok row, db ++ [row])

/-- Ascending comparison on event ids. -/
def eventAscLe (a b : Event) : Prop := a.eventId.data ≤ b.eventId.data

instance : DecidableRel eventAscLe := fun a b =>
  inferInstanceAs (Decidable (a.eventId.data ≤ b.eventId.data))

instance : IsTotal Event eventAscLe := ⟨fun a b => le_total a.eventId.data b.eventId.data⟩

instance : IsTrans Event eventAscLe := ⟨fun _ _ _ h1 h2 => le_trans h1 h2⟩

/-- Descending comparison on event ids. -/
def eventDescLe (a b : Event) : Prop := b.eventId.data ≤ a.eventId.data

instance : DecidableRel eventDescLe := fun a b =>
  inferInstanceAs (Decidable (b.eventId.data ≤ a.eventId.data))

instance : IsTotal Event eventDescLe := ⟨fun a b => le_total b.eventId.data a.eventId.data⟩

instance : IsTrans Event eventDescLe := ⟨fun _ _ _ h1 h2 => le_trans h2 h1⟩

/-- WHERE clause of `createEventsStorage.list`: `eq(events.runId, params.runId)`
ANDed with the direction-matching cursor predicate (`gt` ascending, `lt`
descending). -/
def eventWhere (runId : String) (cursor : Option String) (so : SortOrder)
    (e : Event) : Bool :=
  (e.runId == runId) &&
  (match jsStr cursor with
    | none => true
    | some c =>
      match so with
      | .asc => decide (textLt c e.eventId)
      | .desc => decide (textLt e.eventId c))

/-- Matching rows of an `events.list` query, filtered then ordered by event id
in the requested direction. -/
def eventsMatching (db : List Event) (runId : String) (cursor : Option String)
    (so : SortOrder) : List Event :=
  match so with
  | .asc => List.insertionSort eventAscLe (db.filter (eventWhere runId cursor .asc))
  | .desc => List.insertionSort eventDescLe (db.filter (eventWhere runId cursor .desc))

/-- `createEventsStorage.list`: default limit 100, `sortOrder || 'asc'`,
fetch `limit + 1` rows, slice to `limit`, cursor = id of the last row of the
page. -/
def eventsList (db : List Event) (p : ListEventsParams) :
    PaginatedResponse Event :=
  let limit := (p.pagination.bind Pagination.limit).getD 100
  let so := (p.pagination.bind Pagination.sortOrder).getD .asc
  let all := (eventsMatching db p.runId (p.pagination.bind Pagination.cursor) so).take (limit + 1)
  let values := all.take limit
  { data := values
    cursor := values.getLast?.map Event.eventId
    hasMore := decide (limit < all.length) }

/-- Status union of a step (`workflow_steps.status`). -/
inductive StepStatus where
  | pending | running | completed | failed
deriving DecidableEq, Repr

/-- Row of the `workflow_steps` table. -/
structure Step where
  stepId : String
  runId : String
  stepName : String
  status : StepStatus
  input : String
  output : Option String
  error : Option String
  errorCode : Option String
  attempt : Nat
  startedAt : Option Nat
  completedAt : Option Nat
  createdAt : Nat
  updatedAt : Nat
deriving DecidableEq, Repr

/-- Ascending comparison on step ids. -/
def stepAscLe (a b : Step) : Prop := a.stepId.data ≤ b.stepId.data

instance : DecidableRel stepAscLe := fun a b =>
  inferInstanceAs (Decidable (a.stepId.data ≤ b.stepId.data))

instance : IsTotal Step stepAscLe := ⟨fun a b => le_total a.stepId.data b.stepId.data⟩

instance : IsTrans Step stepAscLe := ⟨fun _ _ _ h1 h2 => le_trans h1 h2⟩

/-- Descending comparison on step ids. -/
def stepDescLe (a b : Step) : Prop := b.stepId.data ≤ a.stepId.data

instance : DecidableRel stepDescLe := fun a b =>
  inferInstanceAs (Decidable (b.stepId.data ≤ a.stepId.data))

instance : IsTotal Step stepDescLe := ⟨fun a b => le_total b.stepId.data a.stepId.data⟩

instance : IsTrans Step stepDescLe := ⟨fun _ _ _ h1 h2 => le_trans h2 h1⟩

/-- Modelled from the spec: `createStepsStorage.list` is referenced by the
sources (`index.ts` builds the storage with it) but its body is not among the
provided files.  Per spec §4.2 every list call takes
`{limit?, cursor?, sortOrder?}` with default limit 100 for Steps, fetches
`limit + 1` rows ordered by the sortable step id in the requested direction
with the matching cursor predicate (`id > cursor` ascending, `id < cursor`
descending), truncates to `limit`, and reports `hasMore`/last-id cursor. -/
def stepWhere (runId : String) (cursor : Option String) (so : SortOrder)
    (s : Step) : Bool :=
  (s.runId == runId) &&
  (match jsStr cursor with
    | none => true
    | some c =>
      match so with
      | .asc => decide (textLt c s.stepId)
      | .desc => decide (textLt s.stepId c))

/-- Modelled from the spec: matching rows of a steps list query, filtered then
ordered by step id in the requested direction (see `stepWhere`). -/
def stepsMatching (db : List Step) (runId : String) (cursor : Option String)
    (so : SortOrder) : List Step :=
  match so with
  | .asc => List.insertionSort stepAscLe (db.filter (stepWhere runId cursor .asc))
  | .desc => List.insertionSort stepDescLe (db.filter (stepWhere runId cursor .desc))

/-- Modelled from the spec: `createStepsStorage.list` with default limit 100
(spec §4.2), mirroring the fetch-one-extra pattern of the other list calls. -/
def stepsList (db : List Step) (runId : String) (pg : Option Pagination) :
    PaginatedResponse Step :=
  let limit := (pg.bind Pagination.limit).getD 100
  let so := (pg.bind Pagination.sortOrder).getD .asc
  let all := (stepsMatching db runId (pg.bind Pagination.cursor) so).take (limit + 1)
  let values := all.take limit
  { data := values
    cursor := values.getLast?.map Step.stepId
    hasMore := decide (limit < all.length) }

/-! ## Queue dispatcher (`queue.ts`) -/

/-- Lane prefixes recognized by `parseQueueName`, in the order tried there. -/
def lanePres : List String := ["__wkf_step_", "__wkf_workflow_"]

/-- Boolean `String.startsWith`, written out on the character data. -/
def strStartsWith (s pre : String) : Bool :=
  s.data.take pre.data.length == pre.data

/-- Suffix of a string after its first `n` characters (`name.slice(n)`). -/
def strDrop (s : String) (n : Nat) : String := ⟨s.data.drop n⟩

/-- `parseQueueName`: tries each recognized lane marker in order; on a match
returns it with the remaining suffix, otherwise the call throws
`Invalid queue name` (modelled as `none`). -/
def parseQueueName (name : String) : Option (String × String) :=
  lanePres.findSome? fun p =>
    if strStartsWith name p then some (p, strDrop name p.data.length) else none

/-- One of the two Cloudflare queue bindings a message can be published to. -/
inductive Lane where
  | workflow | step
deriving DecidableEq, Repr

/-- Envelope published by `createQueue.queue` (wire shape, lane-agnostic). -/
structure Envelope (M : Type) where
  queueName : String
  queueId : String
  message : M
  messageId : String
  idempotencyKey : Option String
  attempt : Nat
deriving DecidableEq, Repr

/-- `createQueue.queue`: parses the queue name (throwing on an unrecognized
lane marker, in which case nothing is published), selects the lane
(`WORKFLOW_QUEUE` exactly when the marker is `__wkf_workflow_`, else
`STEP_QUEUE`), generates `msg_<ulid>` and performs a single `send` of the
envelope.  Returns the thrown-or-returned message id together with the list of
performed publishes. -/
def queueCall {M : Type} (genId : String) (queueName : String) (message : M)
    (idempotencyKey : Option String) :
    Except String String × List (Lane × Envelope M) :=
  match parseQueueName queueName with
  | none => (.error s!"Invalid queue name: {queueName}", [])
  | some (pre, queueId) =>
    let lane := if pre = "__wkf_workflow_" then Lane.workflow else Lane.step
    let messageId := "msg_" ++ genId
    (.ok messageId,
      [(lane, ⟨queueName, queueId, message, messageId, idempotencyKey, 1⟩)])

/-- Per-message effect requested from the queue transport by the consumer. -/
inductive Outcome where
  | ack | retry
deriving DecidableEq, Repr

/-- Body of a delivered queue message as read by `handleQueueMessage`
(`message.body as {...}`); the inner `message` payload is raw and still needs
schema validation. -/
structure QueueMessageBody (Raw : Type) where
  queueName : String
  queueId : String
  message : Raw
  messageId : String
  idempotencyKey : Option String
  attempt : Nat
deriving DecidableEq, Repr

/-- Body of the per-message `try` block of `handleQueueMessage`:
`QueuePayloadSchema.parse` (modelled by `parse`, `none` = throws) followed by
`embeddedWorld.queue` (modelled by `forward`, `false` = throws).  The `catch`
converts any failure into a redelivery request for that message. -/
def processQueueMessage {Raw Payload : Type} (parse : Raw → Option Payload)
    (forward : String → Payload → Option String → Bool)
    (body : QueueMessageBody Raw) : Outcome :=
  match parse body.message with
  | none => .retry
  | some p =>
    if forward body.queueName p body.idempotencyKey then .ack else .retry

/-- `handleQueueMessage`: the `for` loop over `batch.messages`, each iteration
wrapped in its own `try`/`catch` that acks on success and requests redelivery
on any error; the loop itself never throws, so the handler returns an outcome
for every message of the batch. -/
def handleQueueMessage {Raw Payload : Type} (parse : Raw → Option Payload)
    (forward : String → Payload → Option String → Bool) :
    List (QueueMessageBody Raw) → List Outcome
  | [] => []
  | body :: rest =>
    processQueueMessage parse forward body
      :: handleQueueMessage parse forward rest

/-! ## Stream store (`streamer.ts`) -/

/-- Key of an R2 object used by the streamer: `metadata/<name>` or
`streams/<name>/<index>`.  The two key families are disjoint by construction,
which the string prefixes guarantee in the source. -/
inductive R2Key where
  | meta (name : String)
  | chunk (name : String) (idx : Nat)
deriving DecidableEq, Repr

/-- Stream metadata JSON `{chunkCount, closed?}`. -/
structure StreamMeta where
  chunkCount : Nat
  closed : Option Bool
deriving DecidableEq, Repr

/-- Value stored in the R2 bucket: a chunk payload or a metadata record. -/
inductive R2Value where
  | chunkData (data : String)
  | metaData (m : StreamMeta)
deriving DecidableEq, Repr

/-- R2 bucket contents. -/
def R2Bucket : Type := R2Key → Option R2Value

/-- Empty bucket. -/
def emptyBucket : R2Bucket := fun _ => none

/-- `bucket.put`. -/
def bucketPut (b : R2Bucket) (k : R2Key) (v : R2Value) : R2Bucket :=
  fun k' => if k' = k then some v else b k'

/-- Chunk count read from the metadata object of a stream, with absent
metadata treated as zero (both `writeToStream` and `closeStream` do this). -/
def metaChunkCount (b : R2Bucket) (name : String) : Nat :=
  match b (.meta name) with
  | some (.metaData m) => m.chunkCount
  | _ => 0

/-- `createStreamer.writeToStream`: reads the current chunk count, puts the
chunk at that index, then rewrites the metadata as `{chunkCount: count + 1}` —
with no other field, so a `closed` marker is not carried over. -/
def writeToStream (b : R2Bucket) (name : String) (chunk : String) : R2Bucket :=
  let chunkIndex := metaChunkCount b name
  let b2 := bucketPut b (.chunk name chunkIndex) (.chunkData chunk)
  bucketPut b2 (.meta name) (.metaData ⟨chunkIndex + 1, none⟩)

/-- `createStreamer.closeStream`: rewrites the metadata as
`{chunkCount, closed: true}` preserving the chunk count. -/
def closeStream (b : R2Bucket) (name : String) : R2Bucket :=
  bucketPut b (.meta name) (.metaData ⟨metaChunkCount b name, some true⟩)

/-- While-loop body of `readFromStream`: fetch chunks at increasing indices
while `index < chunkCount` (`remaining` counts the iterations left), stopping
early when an expected chunk object is missing. -/
def readChunks (b : R2Bucket) (name : String) : Nat → Nat → List String
  | _, 0 => []
  | idx, remaining + 1 =>
    match b (.chunk name idx) with
    | some (.chunkData d) => d :: readChunks b name (idx + 1) remaining
    | _ => []

/-- `createStreamer.readFromStream`: with no metadata object the produced
stream closes immediately; otherwise chunks `startIndex, startIndex+1, …` up
to (excluding) the recorded chunk count are emitted in order.  The value is
the finite list of emitted chunks. -/
def readFromStream (b : R2Bucket) (name : String) (startIndex : Nat := 0) :
    List String :=
  match b (.meta name) with
  | some (.metaData m) => readChunks b name startIndex (m.chunkCount - startIndex)
  | _ => []

/-! ## Sample rows used by concrete witnesses and counterexamples -/

/-- Sample run row with the given id, status, `startedAt` and `completedAt`. -/
def sampleRun (id : String) (st : RunStatus) (sa ca : Option Nat) : Run :=
  { runId := id
    workflowName := "demo"
    status := st
    input := "[]"
    output := none
    executionContext := none
    deploymentId := "dep"
    error := none
    errorCode := none
    createdAt := 0
    updatedAt := 0
    startedAt := sa
    completedAt := ca }

/-- Sample event row with the given id, for run `wrun_a`. -/
def sampleEvent (id : String) : Event :=
  { eventId := id
    runId := "wrun_a"
    correlationId := none
    eventType := "step"
    eventData := none
    createdAt := 0 }

/-- Sample pending-run table with three distinct ids. -/
def sampleRuns3 : List Run :=
  [sampleRun "wrun_a" .pending none none,
   sampleRun "wrun_b" .pending none none,
   sampleRun "wrun_c" .pending none none]

/-! ## Views of the runs table used in the pagination analysis -/

/-- Full runs table sorted newest-id-first, as the list query orders it. -/
def runsSortedDesc (db : List Run) : List Run :=
  List.insertionSort runDescLe db

/-- Rows of `l` whose id is strictly below an (effective) cursor; with no
cursor the whole list.  This is what the cursor conjunct of `runWhere` keeps. -/
def runsBelow (l : List Run) : Option String → List Run
  | none => l
  | some c => l.filter fun r => decide (textLt r.runId c)

/-! ## Lemmas about the R2 bucket model -/

theorem bucketPut_same (b : R2Bucket) (k : R2Key) (v : R2Value) :
    bucketPut b k v k = some v := by
  simp [bucketPut]

theorem bucketPut_ne (b : R2Bucket) (k k' : R2Key) (v : R2Value)
    (h : k' ≠ k) : bucketPut b k v k' = b k' := by
  simp [bucketPut, h]

/-- C10: after `closeStream` has recorded `{chunkCount, closed: true}`, a
subsequent `writeToStream` rewrites the stream's metadata as
`{chunkCount + 1}` with no `closed` field, so the closed state is lost. -/
theorem write_after_close_drops_closed (b : R2Bucket) (name chunk : String) :
    closeStream b name (R2Key.meta name)
      = some (.metaData ⟨metaChunkCount b name, some true⟩) ∧
    writeToStream (closeStream b name) name chunk (R2Key.meta name)
      = some (.metaData ⟨metaChunkCount b name + 1, none⟩) := by
  constructor
  · simp [closeStream, bucketPut]
  · simp [writeToStream, closeStream, bucketPut, metaChunkCount]

/-- C6: writing three chunks, closing, then reading from index 0 yields
exactly those chunks in order (and the sequence is the finite list shown);
reading from index 1 drops the first chunk; reading a stream without a
metadata object yields the empty sequence. -/
theorem stream_write_close_read (name a b c : String) (buck : R2Bucket) :
    (readFromStream
        (closeStream
          (writeToStream (writeToStream (writeToStream emptyBucket name a) name b) name c)
          name)
        name 0 = [a, b, c] ∧
      readFromStream
        (closeStream
          (writeToStream (writeToStream (writeToStream emptyBucket name a) name b) name c)
          name)
        name 1 = [b, c]) ∧
    (buck (R2Key.meta name) = none → readFromStream buck name 0 = []) := by
  refine ⟨⟨?_, ?_⟩, ?_⟩
  · simp [readFromStream, closeStream, writeToStream, bucketPut, metaChunkCount,
      emptyBucket, readChunks]
  · simp [readFromStream, closeStream, writeToStream, bucketPut, metaChunkCount,
      emptyBucket, readChunks]
  · intro h
    simp [readFromStream, h]

theorem stream_write_close_read_witness :
    emptyBucket (R2Key.meta "s") = none ∧
    readFromStream
        (closeStream
          (writeToStream (writeToStream (writeToStream emptyBucket "s" "a") "s" "b") "s" "c")
          "s")
        "s" 0 = ["a", "b", "c"] ∧
    readFromStream
        (closeStream
          (writeToStream (writeToStream (writeToStream emptyBucket "s" "a") "s" "b") "s" "c")
          "s")
        "s" 1 = ["b", "c"] ∧
    readFromStream emptyBucket "s" 0 = [] :=
  ⟨rfl,
    (stream_write_close_read "s" "a" "b" "c" emptyBucket).1.1,
    (stream_write_close_read "s" "a" "b" "c" emptyBucket).1.2,
    (stream_write_close_read "s" "a" "b" "c" emptyBucket).2 rfl⟩

/-! ## Queue dispatcher claims -/

/-- C5: the batch consumer maps every delivered message to its own outcome
(so it never throws and every message is handled), each message's outcome
depends only on that message, and a message is acknowledged exactly when its
payload decodes/validates and the forward to the processor succeeds —
otherwise redelivery is requested for that message alone. -/
theorem handle_batch_per_message {Raw Payload : Type}
    (parse : Raw → Option Payload)
    (forward : String → Payload → Option String → Bool)
    (batch : List (QueueMessageBody Raw)) :
    handleQueueMessage parse forward batch
        = batch.map (processQueueMessage parse forward) ∧
    (handleQueueMessage parse forward batch).length = batch.length ∧
    ∀ body : QueueMessageBody Raw,
      (processQueueMessage parse forward body = .ack ↔
        ∃ p, parse body.message = some p ∧
          forward body.queueName p body.idempotencyKey = true) ∧
      (processQueueMessage parse forward body = .retry ↔
        ¬ ∃ p, parse body.message = some p ∧
          forward body.queueName p body.idempotencyKey = true) := by
  have hmap : handleQueueMessage parse forward batch
      = batch.map (processQueueMessage parse forward) := by
    induction batch with
    | nil => rfl
    | cons body rest ih => simp [handleQueueMessage, ih]
  refine ⟨hmap, by simp [hmap], ?_⟩
  intro body
  constructor
  · unfold processQueueMessage
    cases hp : parse body.message with
    | none => simp
    | some p =>
      cases hf : forward body.queueName p body.idempotencyKey <;> simp [hf]
  · unfold processQueueMessage
    cases hp : parse body.message with
    | none => simp
    | some p =>
      cases hf : forward body.queueName p body.idempotencyKey <;> simp [hf]

/-- C7: `queue` publishes nothing and fails when the queue name carries
neither recognized lane marker; otherwise it performs exactly one publish, of
the envelope `{queueName, queueId = suffix after the marker, message,
messageId, idempotencyKey, attempt: 1}`, to the lane selected by the marker,
and returns the freshly generated non-empty `msg_`-prefixed message id. -/
theorem queue_publish_correct {M : Type} (genId queueName : String)
    (message : M) (ik : Option String) :
    (parseQueueName queueName = none ↔
      strStartsWith queueName "__wkf_step_" = false ∧
        strStartsWith queueName "__wkf_workflow_" = false) ∧
    (parseQueueName queueName = none →
      queueCall genId queueName message ik
        = (.error s!"Invalid queue name: {queueName}", [])) ∧
    (∀ pre qid, parseQueueName queueName = some (pre, qid) →
      (strStartsWith queueName pre = true ∧
        qid = strDrop queueName pre.data.length ∧
        (pre = "__wkf_step_" ∨ pre = "__wkf_workflow_")) ∧
      queueCall genId queueName message ik
        = (.ok ("msg_" ++ genId),
            [((if pre = "__wkf_workflow_" then Lane.workflow else Lane.step),
              ⟨queueName, qid, message, "msg_" ++ genId, ik, 1⟩)])) ∧
    ("msg_" ++ genId) ≠ "" := by
  refine ⟨?_, ?_, ?_, ?_⟩
  · unfold parseQueueName lanePres
    cases h1 : strStartsWith queueName "__wkf_step_" <;>
      cases h2 : strStartsWith queueName "__wkf_workflow_" <;>
        simp [List.findSome?, h1, h2]
  · intro h
    simp [queueCall, h]
  · intro pre qid h
    have hchar : strStartsWith queueName pre = true ∧
        qid = strDrop queueName pre.data.length ∧
        (pre = "__wkf_step_" ∨ pre = "__wkf_workflow_") := by
      unfold parseQueueName lanePres at h
      cases h1 : strStartsWith queueName "__wkf_step_" <;>
        cases h2 : strStartsWith queueName "__wkf_workflow_" <;>
          simp [List.findSome?, h1, h2] at h
      · obtain ⟨hp, hq⟩ := h
        subst hp
        exact ⟨h2, hq.symm, Or.inr rfl⟩
      · obtain ⟨hp, hq⟩ := h
        subst hp
        exact ⟨h1, hq.symm, Or.inl rfl⟩
      · obtain ⟨hp, hq⟩ := h
        subst hp
        exact ⟨h1, hq.symm, Or.inl rfl⟩
    refine ⟨hchar, ?_⟩
    simp [queueCall, h]
  · intro h
    have hlen := congrArg String.length h
    rw [String.length_append] at hlen
    have h4 : "msg_".length = 4 := rfl
    have h0 : "".length = 0 := rfl
    rw [h4, h0] at hlen
    omega

theorem queue_publish_correct_witness :
    (parseQueueName "default" = none ∧
      queueCall (M := String) "01A" "default" "p" none
        = (.error "Invalid queue name: default", [])) ∧
    (parseQueueName "__wkf_workflow_default"
        = some ("__wkf_workflow_", "default") ∧
      queueCall (M := String) "01A" "__wkf_workflow_default" "p" (some "k")
        = (.ok "msg_01A",
            [(Lane.workflow,
              ⟨"__wkf_workflow_default", "default", "p", "msg_01A",
                some "k", 1⟩)])) :=
  ⟨⟨by decide,
      (queue_publish_correct (M := String) "01A" "default" "p" none).2.1
        (by decide)⟩,
    ⟨by decide,
      by
        have h := ((queue_publish_correct (M := String) "01A"
            "__wkf_workflow_default" "p" (some "k")).2.2.1
          "__wkf_workflow_" "default" (by decide)).2
        simpa using h⟩⟩

/-! ## Lemmas about row lookup and conditional update -/

theorem head?_filter_mem {p : Run → Bool} {db : List Run} {r : Run}
    (h : (db.filter p).head? = some r) : r ∈ db ∧ p r = true := by
  induction db with
  | nil => simp [List.filter] at h
  | cons x xs ih =>
    by_cases hp : p x
    · rw [List.filter_cons_of_pos hp] at h
      injection h with h
      subst h
      exact ⟨List.mem_cons_self x xs, hp⟩
    · rw [List.filter_cons_of_neg hp] at h
      have hih := ih h
      exact ⟨List.mem_cons_of_mem x hih.1, hih.2⟩

theorem head?_filter_and {p q : Run → Bool} {db : List Run} {r : Run}
    (h : (db.filter p).head? = some r) (hq : q r = true) :
    (db.filter fun x => p x && q x).head? = some r := by
  induction db with
  | nil => simp at h
  | cons x xs ih =>
    by_cases hp : p x
    · have hx : x = r := by
        rw [List.filter_cons_of_pos hp] at h
        exact Option.some.inj h
      subst hx
      rw [List.filter_cons_of_pos (by rw [hp, hq]; rfl)]
      rfl
    · rw [List.filter_cons_of_neg hp] at h
      rw [List.filter_cons_of_neg (by simp [hp])]
      exact ih h

theorem updateWhere_of_no_match {pred : Run → Bool} {db : List Run}
    (f : Run → Run) (h : ∀ x ∈ db, pred x = false) :
    updateWhere db pred f = (db, none) := by
  unfold updateWhere
  have h1 : db.filter pred = [] :=
    List.filter_eq_nil_iff.mpr (fun a ha => by simp [h a ha])
  rw [h1]
  have h2 : (db.map fun r => if pred r then f r else r) = db.map id := by
    refine List.map_congr_left ?_
    intro a ha
    rw [h a ha]
    rfl
  rw [h2, List.map_id]
  rfl

/-! ## C4: resume is a conditional update succeeding only on paused rows -/

/-- C4: on a table with unique run ids, `resume` fails with a 404
`Paused run not found` error and leaves the table untouched whenever the id is
absent or the row's status is not `paused`; it succeeds exactly on a `paused`
row, switching that row to `running` and returning the post-mutation row. -/
theorem resume_only_from_paused (db : List Run) (id : String)
    (hn : (db.map Run.runId).Nodup) :
    (runsLookup db id = none →
      runsResume db id = (.error ⟨s!"Paused run not found: {id}", 404⟩, db)) ∧
    (∀ r, runsLookup db id = some r → r.status ≠ .paused →
      runsResume db id = (.error ⟨s!"Paused run not found: {id}", 404⟩, db)) ∧
    (∀ r, runsLookup db id = some r → r.status = .paused →
      runsResume db id = (.ok { r with status := .running },
        db.map fun x => if x.runId = id then { x with status := .running } else x)) := by
  refine ⟨?_, ?_, ?_⟩
  · intro h
    have hnil : db.filter (fun r => r.runId == id) = [] :=
      List.head?_eq_none_iff.mp h
    have hall : ∀ x ∈ db, (x.runId == id && x.status == RunStatus.paused) = false := by
      intro x hx
      have : ¬ (x.runId == id) = true := by
        intro hc
        have := List.filter_eq_nil_iff.mp hnil x hx
        exact this hc
      simp only [Bool.and_eq_false_iff]
      left
      exact Bool.not_eq_true _ ▸ (Bool.eq_false_iff.mpr this)
    unfold runsResume
    rw [updateWhere_of_no_match _ hall]
  · intro r h hst
    have hr := head?_filter_mem h
    have hall : ∀ x ∈ db, (x.runId == id && x.status == RunStatus.paused) = false := by
      intro x hx
      by_cases hid : x.runId = id
      · have hxr : x = r := by
          refine List.inj_on_of_nodup_map hn hx hr.1 ?_
          rw [hid]
          exact beq_iff_eq.mp hr.2 |>.symm
        subst hxr
        have : ¬ (x.status == RunStatus.paused) = true := by
          intro hc
          exact hst (beq_iff_eq.mp hc)
        simp only [Bool.and_eq_false_iff]
        right
        exact Bool.eq_false_iff.mpr this
      · simp only [Bool.and_eq_false_iff]
        left
        exact beq_eq_false_iff_ne.mpr hid
    unfold runsResume
    rw [updateWhere_of_no_match _ hall]
  · intro r h hst
    have hr := head?_filter_mem h
    have hhead : (db.filter fun x => x.runId == id && x.status == RunStatus.paused).head?
        = some r :=
      head?_filter_and h (by rw [hst]; rfl)
    unfold runsResume updateWhere
    rw [hhead]
    have hmap : (db.map fun x =>
          if x.runId == id && x.status == RunStatus.paused
          then { x with status := .running } else x)
        = db.map fun x => if x.runId = id then { x with status := .running } else x := by
      refine List.map_congr_left ?_
      intro x hx
      by_cases hid : x.runId = id
      · have hxr : x = r := by
          refine List.inj_on_of_nodup_map hn hx hr.1 ?_
          rw [hid]
          exact beq_iff_eq.mp hr.2 |>.symm
        subst hxr
        rw [if_pos (by rw [beq_iff_eq.mpr hid, hst]; rfl), if_pos hid]
      · rw [if_neg (by simp [hid]), if_neg hid]
    simp only [hmap]
    rfl

theorem resume_only_from_paused_witness :
    (([sampleRun "wrun_a" .paused none none,
        sampleRun "wrun_b" .pending none none].map Run.runId).Nodup ∧
      runsLookup [sampleRun "wrun_a" .paused none none,
        sampleRun "wrun_b" .pending none none] "wrun_c" = none ∧
      runsLookup [sampleRun "wrun_a" .paused none none,
        sampleRun "wrun_b" .pending none none] "wrun_b"
        = some (sampleRun "wrun_b" .pending none none) ∧
      runsLookup [sampleRun "wrun_a" .paused none none,
        sampleRun "wrun_b" .pending none none] "wrun_a"
        = some (sampleRun "wrun_a" .paused none none)) ∧
    runsResume [sampleRun "wrun_a" .paused none none,
        sampleRun "wrun_b" .pending none none] "wrun_c"
      = (.error ⟨"Paused run not found: wrun_c", 404⟩,
          [sampleRun "wrun_a" .paused none none,
            sampleRun "wrun_b" .pending none none]) ∧
    runsResume [sampleRun "wrun_a" .paused none none,
        sampleRun "wrun_b" .pending none none] "wrun_b"
      = (.error ⟨"Paused run not found: wrun_b", 404⟩,
          [sampleRun "wrun_a" .paused none none,
            sampleRun "wrun_b" .pending none none]) ∧
    runsResume [sampleRun "wrun_a" .paused none none,
        sampleRun "wrun_b" .pending none none] "wrun_a"
      = (.ok { sampleRun "wrun_a" .paused none none with status := .running },
          [{ sampleRun "wrun_a" .paused none none with status := .running },
            sampleRun "wrun_b" .pending none none]) := by
  have t := resume_only_from_paused
    [sampleRun "wrun_a" .paused none none,
      sampleRun "wrun_b" .pending none none] "wrun_c" (by decide)
  have t2 := resume_only_from_paused
    [sampleRun "wrun_a" .paused none none,
      sampleRun "wrun_b" .pending none none] "wrun_b" (by decide)
  have t3 := resume_only_from_paused
    [sampleRun "wrun_a" .paused none none,
      sampleRun "wrun_b" .pending none none] "wrun_a" (by decide)
  refine ⟨⟨by decide, by decide, by decide, by decide⟩, ?_, ?_, ?_⟩
  · exact t.1 (by decide)
  · exact t2.2.1 (sampleRun "wrun_b" .pending none none) (by decide) (by decide)
  · have h := t3.2.2 (sampleRun "wrun_a" .paused none none) (by decide) (by decide)
    rw [h]
    rfl

/-! ## Lemmas about the mutation helpers -/

theorem runsUpdate_found {db : List Run} {id : String} {d : UpdateRunData}
    {now : Nat} {r : Run} (h : runsLookup db id = some r) :
    (runsUpdate db id d now).1 = .ok (applyRunUpdate r d now r) := by
  unfold runsUpdate updateWhere
  rw [show (db.filter fun x => x.runId == id).head? = runsLookup db id from rfl, h]
  rfl

theorem runsCancel_found {db : List Run} {id : String} {now : Nat} {r : Run}
    (h : runsLookup db id = some r) :
    (runsCancel db id now).1
      = .ok { r with status := .cancelled, completedAt := some now } := by
  unfold runsCancel updateWhere
  rw [show (db.filter fun x => x.runId == id).head? = runsLookup db id from rfl, h]
  rfl

theorem runsPause_found {db : List Run} {id : String} {r : Run}
    (h : runsLookup db id = some r) :
    (runsPause db id).1 = .ok { r with status := .paused } := by
  unfold runsPause updateWhere
  rw [show (db.filter fun x => x.runId == id).head? = runsLookup db id from rfl, h]
  rfl

theorem runsResume_found {db : List Run} {id : String} {r : Run}
    (h : runsLookup db id = some r) (hst : r.status = .paused) :
    (runsResume db id).1 = .ok { r with status := .running } := by
  have hhead : (db.filter fun x => x.runId == id && x.status == RunStatus.paused).head?
      = some r :=
    head?_filter_and h (by rw [hst]; rfl)
  unfold runsResume updateWhere
  rw [hhead]
  rfl

theorem applyRunUpdate_completedAt_terminal {cur : Run} {d : UpdateRunData}
    {now : Nat} (r : Run)
    (h : d.status = some .completed ∨ d.status = some .failed
      ∨ d.status = some .cancelled) :
    (applyRunUpdate cur d now r).completedAt = some now := by
  rcases h with h | h | h <;> simp [applyRunUpdate, h]

theorem applyRunUpdate_startedAt_of_set {cur : Run} {d : UpdateRunData}
    {now t : Nat} (r : Run) (hsa : cur.startedAt = some t) :
    (applyRunUpdate cur d now r).startedAt = r.startedAt := by
  simp [applyRunUpdate, hsa, apply_ite Run.startedAt]

theorem applyRunUpdate_startedAt_first_running {cur : Run} {d : UpdateRunData}
    {now : Nat} (r : Run) (hsa : cur.startedAt = none)
    (hds : d.status = some .running) :
    (applyRunUpdate cur d now r).startedAt = some now ∧
      (applyRunUpdate cur d now r).status = .running := by
  simp [applyRunUpdate, hsa, hds]

theorem applyRunUpdate_startedAt_not_running {cur : Run} {d : UpdateRunData}
    {now : Nat} (r : Run) (hds : d.status ≠ some .running) :
    (applyRunUpdate cur d now r).startedAt = r.startedAt := by
  have hg : (d.status == some RunStatus.running) = false :=
    beq_eq_false_iff_ne.mpr hds
  simp [applyRunUpdate, hg, apply_ite Run.startedAt]

/-! ## C2: completedAt on terminal transitions -/

/-- C2 counterexample: a run that is already `completed` with
`completedAt = 100` gets its `completedAt` rewritten to the new clock value
`200` by a later `update` to `failed`, so a later update does not leave the
already-set `completedAt` unchanged. -/
theorem completed_at_overwritten_counterexample :
    ((runsUpdate [sampleRun "wrun_a" .completed none (some 100)] "wrun_a"
        { status := some .failed } 200).1.toOption.map Run.completedAt)
      = some (some 200) ∧
    some (200 : Nat) ≠ some (100 : Nat) :=
  ⟨rfl, by decide⟩

/-- C2 amended: `update` sets `completedAt` to the current time on every call
whose new status is one of `completed`, `failed`, `cancelled` — including when
`completedAt` is already set — and `cancel` always rewrites `completedAt` to
the current time; in particular the first transition into a terminal status
does set `completedAt`. -/
theorem completed_at_set_on_every_terminal_write (db : List Run) (id : String)
    (d : UpdateRunData) (now : Nat) (r : Run) (h : runsLookup db id = some r) :
    ((d.status = some .completed ∨ d.status = some .failed
        ∨ d.status = some .cancelled) →
      ∃ v, (runsUpdate db id d now).1 = .ok v ∧ v.completedAt = some now) ∧
    (∃ v, (runsCancel db id now).1 = .ok v ∧ v.completedAt = some now ∧
      v.status = .cancelled) := by
  constructor
  · intro hts
    exact ⟨applyRunUpdate r d now r, runsUpdate_found h,
      applyRunUpdate_completedAt_terminal r hts⟩
  · exact ⟨{ r with status := .cancelled, completedAt := some now },
      runsCancel_found h, rfl, rfl⟩

theorem completed_at_set_on_every_terminal_write_witness :
    runsLookup [sampleRun "wrun_a" .completed none (some 100)] "wrun_a"
        = some (sampleRun "wrun_a" .completed none (some 100)) ∧
    (∃ v, (runsUpdate [sampleRun "wrun_a" .completed none (some 100)] "wrun_a"
        { status := some .failed } 200).1 = .ok v ∧ v.completedAt = some 200) ∧
    (∃ v, (runsCancel [sampleRun "wrun_a" .completed none (some 100)] "wrun_a"
        200).1 = .ok v ∧ v.completedAt = some 200 ∧ v.status = .cancelled) :=
  ⟨by decide,
    (completed_at_set_on_every_terminal_write
      [sampleRun "wrun_a" .completed none (some 100)] "wrun_a"
      { status := some .failed } 200
      (sampleRun "wrun_a" .completed none (some 100)) (by decide)).1
      (Or.inr (Or.inl rfl)),
    (completed_at_set_on_every_terminal_write
      [sampleRun "wrun_a" .completed none (some 100)] "wrun_a"
      { status := some .failed } 200
      (sampleRun "wrun_a" .completed none (some 100)) (by decide)).2⟩

/-! ## C3: startedAt on transitions into running -/

/-- C3 counterexample: pausing a `pending` run and resuming it is the run's
first transition into `running`, yet the resumed row has
`startedAt = none` — `resume` puts a run into `running` without setting
`startedAt`, so `startedAt` is not set on every first transition into
`running`. -/
theorem resume_skips_started_at_counterexample :
    ((runsResume (runsPause [sampleRun "wrun_a" .pending none none] "wrun_a").2
        "wrun_a").1.toOption.map (fun v => (v.status, v.startedAt)))
      = some (RunStatus.running, none) ∧
    ∀ t : Nat, (none : Option Nat) ≠ some t :=
  ⟨rfl, fun _ h => Option.noConfusion h⟩

/-- C3 amended: `startedAt` is set at most once, and only by `update`,
exactly on an update to `running` finding `startedAt` still unset: such an
update sets it to the current time, an update whose new status is not
`running` leaves an unset `startedAt` unset, and every operation (`update`,
`cancel`, `pause`, `resume`) preserves an already-set `startedAt` unchanged —
but `resume` transitions a paused run into `running` without setting
`startedAt`, so a first transition into `running` performed by `resume`
leaves it unset. -/
theorem started_at_set_only_by_first_running_update (db : List Run)
    (id : String) (d : UpdateRunData) (now : Nat) (r : Run)
    (h : runsLookup db id = some r) :
    (r.startedAt = none → d.status = some .running →
      ∃ v, (runsUpdate db id d now).1 = .ok v ∧ v.startedAt = some now ∧
        v.status = .running) ∧
    (r.startedAt = none → d.status ≠ some .running →
      ∃ v, (runsUpdate db id d now).1 = .ok v ∧ v.startedAt = none) ∧
    (∀ t, r.startedAt = some t →
      ∃ v, (runsUpdate db id d now).1 = .ok v ∧ v.startedAt = some t) ∧
    (∃ v, (runsCancel db id now).1 = .ok v ∧ v.startedAt = r.startedAt) ∧
    (∃ v, (runsPause db id).1 = .ok v ∧ v.startedAt = r.startedAt) ∧
    (r.status = .paused →
      ∃ v, (runsResume db id).1 = .ok v ∧ v.startedAt = r.startedAt ∧
        v.status = .running) := by
  refine ⟨?_, ?_, ?_, ?_, ?_, ?_⟩
  · intro hsa hds
    obtain ⟨h1, h2⟩ := @applyRunUpdate_startedAt_first_running r d now r hsa hds
    exact ⟨applyRunUpdate r d now r, runsUpdate_found h, h1, h2⟩
  · intro hsa hds
    refine ⟨applyRunUpdate r d now r, runsUpdate_found h, ?_⟩
    rw [applyRunUpdate_startedAt_not_running r hds]
    exact hsa
  · intro t hsa
    refine ⟨applyRunUpdate r d now r, runsUpdate_found h, ?_⟩
    rw [applyRunUpdate_startedAt_of_set r hsa, hsa]
  · exact ⟨{ r with status := .cancelled, completedAt := some now },
      runsCancel_found h, rfl⟩
  · exact ⟨{ r with status := .paused }, runsPause_found h, rfl⟩
  · intro hst
    exact ⟨{ r with status := .running }, runsResume_found h hst, rfl, rfl⟩

theorem started_at_set_only_by_first_running_update_witness :
    runsLookup [sampleRun "wrun_a" .pending none none] "wrun_a"
        = some (sampleRun "wrun_a" .pending none none) ∧
    (∃ v, (runsUpdate [sampleRun "wrun_a" .pending none none] "wrun_a"
        { status := some .running } 50).1 = .ok v ∧ v.startedAt = some 50 ∧
        v.status = .running) ∧
    (∃ v, (runsUpdate [sampleRun "wrun_a" .pending none none] "wrun_a"
        { status := some .completed } 60).1 = .ok v ∧ v.startedAt = none) ∧
    runsLookup [sampleRun "wrun_b" .paused (some 7) none] "wrun_b"
        = some (sampleRun "wrun_b" .paused (some 7) none) ∧
    (∃ v, (runsUpdate [sampleRun "wrun_b" .paused (some 7) none] "wrun_b"
        { status := some .running } 99).1 = .ok v ∧ v.startedAt = some 7) ∧
    (∃ v, (runsResume [sampleRun "wrun_b" .paused (some 7) none] "wrun_b").1
        = .ok v ∧ v.startedAt = some 7 ∧ v.status = .running) := by
  have t1 := started_at_set_only_by_first_running_update
    [sampleRun "wrun_a" .pending none none] "wrun_a"
    { status := some .running } 50 (sampleRun "wrun_a" .pending none none)
    (by decide)
  have t3 := started_at_set_only_by_first_running_update
    [sampleRun "wrun_a" .pending none none] "wrun_a"
    { status := some .completed } 60 (sampleRun "wrun_a" .pending none none)
    (by decide)
  have t2 := started_at_set_only_by_first_running_update
    [sampleRun "wrun_b" .paused (some 7) none] "wrun_b"
    { status := some .running } 99 (sampleRun "wrun_b" .paused (some 7) none)
    (by decide)
  refine ⟨by decide, t1.1 rfl rfl, t3.2.1 rfl (by decide), by decide, ?_, ?_⟩
  · have hb := t2.2.2.1 7 rfl
    obtain ⟨v, hv1, hv2⟩ := hb
    exact ⟨v, hv1, hv2⟩
  · have hb := t2.2.2.2.2.2 rfl
    obtain ⟨v, hv1, hv2, hv3⟩ := hb
    exact ⟨v, hv1, by rw [hv2]; rfl, hv3⟩

/-! ## Sortedness machinery for the pagination proof -/

theorem sorted_desc_strict {l : List Run} (hs : l.Sorted runDescLe)
    (hn : (l.map Run.runId).Nodup) : l.Sorted runDescLt := by
  have hne : l.Pairwise fun a b => a.runId ≠ b.runId := List.pairwise_map.mp hn
  refine (hs.and hne).imp ?_
  rintro a b ⟨hle, hab⟩
  refine lt_of_le_of_ne hle ?_
  intro hdata
  exact hab (String.ext hdata).symm

theorem runsSortedDesc_sorted (db : List Run)
    (hn : (db.map Run.runId).Nodup) :
    (runsSortedDesc db).Sorted runDescLt := by
  refine sorted_desc_strict (List.sorted_insertionSort runDescLe db) ?_
  exact (((List.perm_insertionSort runDescLe db).map Run.runId).nodup_iff).mpr hn

theorem runsBelow_sorted {l : List Run} (hs : l.Sorted runDescLt)
    (c : Option String) : (runsBelow l c).Sorted runDescLt := by
  cases c with
  | none => exact hs
  | some cc => exact hs.filter _

theorem insertionSort_filter_comm (db : List Run) (p : Run → Bool)
    (hn : (db.map Run.runId).Nodup) :
    List.insertionSort runDescLe (db.filter p) = (runsSortedDesc db).filter p := by
  have hperm : (List.insertionSort runDescLe (db.filter p)).Perm
      ((runsSortedDesc db).filter p) :=
    (List.perm_insertionSort runDescLe (db.filter p)).trans
      (((List.perm_insertionSort runDescLe db).filter p).symm)
  have hnf : ((db.filter p).map Run.runId).Nodup :=
    List.Nodup.sublist ((List.filter_sublist db).map Run.runId) hn
  have hs1 : (List.insertionSort runDescLe (db.filter p)).Sorted runDescLt := by
    refine sorted_desc_strict (List.sorted_insertionSort runDescLe _) ?_
    exact (((List.perm_insertionSort runDescLe (db.filter p)).map Run.runId).nodup_iff).mpr hnf
  have hs2 : ((runsSortedDesc db).filter p).Sorted runDescLt :=
    (runsSortedDesc_sorted db hn).filter p
  exact List.eq_of_perm_of_sorted hperm hs1 hs2

theorem take_getLast?_eq (s : List Run) (limit : Nat) (h1 : 1 ≤ limit)
    (h2 : limit ≤ s.length) (hidx : limit - 1 < s.length) :
    (s.take limit).getLast? = some (s.get ⟨limit - 1, hidx⟩) := by
  rw [List.getLast?_eq_getElem?, List.length_take]
  have hmin : limit ⊓ s.length - 1 = limit - 1 := by omega
  rw [hmin, List.getElem?_take, if_pos (by omega), List.getElem?_eq_getElem hidx]
  rfl

theorem page_cursor_ne_empty (s : List Run) (hs : s.Sorted runDescLt)
    (limit : Nat) (h1 : 1 ≤ limit) (h2 : limit < s.length)
    (hidx : limit - 1 < s.length) :
    (s.get ⟨limit - 1, hidx⟩).runId ≠ "" := by
  have hpw := List.pairwise_iff_getElem.mp hs
  have hlt := hpw (limit - 1) limit hidx h2 (by omega)
  intro hc
  have hc2 : s[limit - 1].runId = "" := hc
  have hlt2 : s[limit].runId.data < s[limit - 1].runId.data := hlt
  rw [hc2] at hlt2
  exact List.Lex.not_nil_right _ _ hlt2

theorem filter_below_at_cursor (s : List Run) (hs : s.Sorted runDescLt)
    (limit : Nat) (h1 : 1 ≤ limit) (h2 : limit < s.length)
    (hidx : limit - 1 < s.length) (cid : String)
    (hcid : cid = (s.get ⟨limit - 1, hidx⟩).runId) :
    s.filter (fun r => decide (textLt r.runId cid)) = s.drop limit := by
  have hpw := List.pairwise_iff_getElem.mp hs
  have htake : (s.take limit).filter (fun r => decide (textLt r.runId cid)) = [] := by
    rw [List.filter_eq_nil_iff]
    intro a ha
    obtain ⟨i, hi, hieq⟩ := List.mem_take_iff_getElem.mp ha
    rw [Bool.not_eq_true, decide_eq_false_iff_not, hcid]
    subst hieq
    rcases Nat.lt_or_ge i (limit - 1) with hlt | hge
    · have hji := hpw i (limit - 1) (by omega) hidx hlt
      intro hcon
      exact absurd hcon (lt_asymm hji)
    · have hieq2 : i = limit - 1 := by omega
      subst hieq2
      exact lt_irrefl _
  have hdrop : (s.drop limit).filter (fun r => decide (textLt r.runId cid))
      = s.drop limit := by
    rw [List.filter_eq_self]
    intro a ha
    obtain ⟨j, hj, hjeq⟩ := List.mem_drop_iff_getElem.mp ha
    rw [decide_eq_true_eq, hcid]
    subst hjeq
    exact hpw (limit - 1) (limit + j) hidx (by omega) (by omega)
  conv_lhs => rw [← List.take_append_drop limit s]
  rw [List.filter_append, htake, hdrop, List.nil_append]

/-! ## Characterizing one paginated `runs.list` call -/

theorem runsMatching_paginate (db : List Run) (hn : (db.map Run.runId).Nodup)
    (limit : Nat) (c : Option String) :
    runsMatching db ⟨none, none, some ⟨some limit, c, none⟩⟩
      = runsBelow (runsSortedDesc db) (jsStr c) := by
  unfold runsMatching
  have hfil : db.filter (runWhere
        ((some (⟨some limit, c, none⟩ : Pagination)).bind Pagination.cursor) none none)
      = db.filter fun r =>
          match jsStr c with
          | none => true
          | some cc => decide (textLt r.runId cc) := by
    refine List.filter_congr ?_
    intro x _
    simp [runWhere, jsStr]
  rw [hfil]
  rcases hc : jsStr c with _ | cc
  · show List.insertionSort runDescLe (db.filter fun _ => true) = runsSortedDesc db
    rw [List.filter_true]
    rfl
  · show List.insertionSort runDescLe
        (db.filter fun r => decide (textLt r.runId cc))
      = (runsSortedDesc db).filter fun r => decide (textLt r.runId cc)
    exact insertionSort_filter_comm db _ hn

theorem runsPaginate_succ (db : List Run) (limit fuel : Nat) (c : Option String) :
    runsPaginate db limit (fuel + 1) c =
      (if (runsList db ⟨none, none, some ⟨some limit, c, none⟩⟩).hasMore then
        (runsList db ⟨none, none, some ⟨some limit, c, none⟩⟩).data
          ++ runsPaginate db limit fuel
              (runsList db ⟨none, none, some ⟨some limit, c, none⟩⟩).cursor
      else (runsList db ⟨none, none, some ⟨some limit, c, none⟩⟩).data) := rfl

theorem runsList_paginate_data (db : List Run) (hn : (db.map Run.runId).Nodup)
    (limit : Nat) (c : Option String) :
    (runsList db ⟨none, none, some ⟨some limit, c, none⟩⟩).data
      = (runsBelow (runsSortedDesc db) (jsStr c)).take limit := by
  show ((runsMatching db ⟨none, none, some ⟨some limit, c, none⟩⟩).take
      (limit + 1)).take limit = _
  rw [runsMatching_paginate db hn limit c, List.take_take,
    min_eq_left (Nat.le_succ limit)]

theorem runsList_paginate_hasMore (db : List Run) (hn : (db.map Run.runId).Nodup)
    (limit : Nat) (c : Option String) :
    (runsList db ⟨none, none, some ⟨some limit, c, none⟩⟩).hasMore
      = decide (limit < (runsBelow (runsSortedDesc db) (jsStr c)).length) := by
  show decide (limit < ((runsMatching db
      ⟨none, none, some ⟨some limit, c, none⟩⟩).take (limit + 1)).length) = _
  rw [runsMatching_paginate db hn limit c, decide_eq_decide, List.length_take]
  omega

theorem runsList_paginate_cursor (db : List Run) (hn : (db.map Run.runId).Nodup)
    (limit : Nat) (c : Option String) :
    (runsList db ⟨none, none, some ⟨some limit, c, none⟩⟩).cursor
      = ((runsBelow (runsSortedDesc db) (jsStr c)).take limit).getLast?.map Run.runId := by
  show (((runsMatching db ⟨none, none, some ⟨some limit, c, none⟩⟩).take
      (limit + 1)).take limit).getLast?.map Run.runId = _
  rw [runsMatching_paginate db hn limit c, List.take_take,
    min_eq_left (Nat.le_succ limit)]

/-! ## The pagination induction -/

theorem filter_runsBelow_of_imp (L : List Run) (co : Option String)
    (p : Run → Bool)
    (himp : ∀ r, p r = true → ∀ cc, co = some cc →
      decide (textLt r.runId cc) = true) :
    L.filter p = (runsBelow L co).filter p := by
  cases co with
  | none => rfl
  | some cc =>
    show L.filter p = (L.filter fun r => decide (textLt r.runId cc)).filter p
    rw [List.filter_filter]
    refine List.filter_congr ?_
    intro x _
    cases hx : p x with
    | false => rfl
    | true =>
      rw [himp x hx cc rfl]
      rfl

theorem runsPaginate_eq_below (db : List Run) (hn : (db.map Run.runId).Nodup)
    (limit : Nat) (h1 : 1 ≤ limit) :
    ∀ (fuel : Nat) (c : Option String),
      (runsBelow (runsSortedDesc db) (jsStr c)).length ≤ fuel →
      runsPaginate db limit fuel c = runsBelow (runsSortedDesc db) (jsStr c) := by
  intro fuel
  induction fuel with
  | zero =>
    intro c hc
    have hnil : runsBelow (runsSortedDesc db) (jsStr c) = [] :=
      List.length_eq_zero.mp (Nat.le_zero.mp hc)
    rw [hnil]
    rfl
  | succ fuel ih =>
    intro c hc
    have hsorts : (runsBelow (runsSortedDesc db) (jsStr c)).Sorted runDescLt :=
      runsBelow_sorted (runsSortedDesc_sorted db hn) (jsStr c)
    rw [runsPaginate_succ, runsList_paginate_hasMore db hn limit c,
      runsList_paginate_data db hn limit c, runsList_paginate_cursor db hn limit c]
    by_cases hmore : limit < (runsBelow (runsSortedDesc db) (jsStr c)).length
    · rw [decide_eq_true hmore, if_pos rfl]
      have hidx : limit - 1 < (runsBelow (runsSortedDesc db) (jsStr c)).length := by
        omega
      obtain ⟨lastRow, hlast⟩ :
          ∃ x, (runsBelow (runsSortedDesc db) (jsStr c)).get ⟨limit - 1, hidx⟩ = x :=
        ⟨_, rfl⟩
      rw [take_getLast?_eq _ limit h1 (le_of_lt hmore) hidx, hlast, Option.map_some']
      have hmem : lastRow ∈ runsBelow (runsSortedDesc db) (jsStr c) := by
        rw [← hlast]
        exact List.getElem_mem hidx
      have hne : lastRow.runId ≠ "" := by
        rw [← hlast]
        exact page_cursor_ne_empty _ hsorts limit h1 hmore hidx
      have hjs : jsStr (some lastRow.runId) = some lastRow.runId := by
        show (if lastRow.runId = "" then none else some lastRow.runId)
          = some lastRow.runId
        rw [if_neg hne]
      have hrest : runsBelow (runsSortedDesc db) (jsStr (some lastRow.runId))
          = (runsBelow (runsSortedDesc db) (jsStr c)).drop limit := by
        rw [hjs]
        show (runsSortedDesc db).filter (fun r => decide (textLt r.runId lastRow.runId))
          = (runsBelow (runsSortedDesc db) (jsStr c)).drop limit
        have hstep : (runsSortedDesc db).filter
              (fun r => decide (textLt r.runId lastRow.runId))
            = (runsBelow (runsSortedDesc db) (jsStr c)).filter
              (fun r => decide (textLt r.runId lastRow.runId)) := by
          refine filter_runsBelow_of_imp _ _ _ ?_
          intro r hr cc hcc
          rw [hcc] at hmem
          have hcid : textLt lastRow.runId cc :=
            of_decide_eq_true (List.mem_filter.mp hmem).2
          exact decide_eq_true (lt_trans (of_decide_eq_true hr) hcid)
        rw [hstep]
        refine filter_below_at_cursor _ hsorts limit h1 hmore hidx _ ?_
        rw [hlast]
      have hlen2 : (runsBelow (runsSortedDesc db)
            (jsStr (some lastRow.runId))).length ≤ fuel := by
        rw [hrest, List.length_drop]
        omega
      rw [ih _ hlen2, hrest]
      exact List.take_append_drop limit _
    · rw [decide_eq_false hmore, if_neg (by simp)]
      exact List.take_of_length_le (by omega)

/-- C1: creating any table of runs with pairwise distinct ids and repeatedly
calling `runs.list` with a fixed positive `limit`, feeding each returned
cursor into the next call until `hasMore` is false (any call budget of at
least the table size suffices), returns a permutation of the table: every
created run appears, each exactly once. -/
theorem runs_pagination_exhaustive (db : List Run) (limit fuel : Nat)
    (hn : (db.map Run.runId).Nodup) (h1 : 1 ≤ limit)
    (hf : db.length ≤ fuel) :
    (runsPaginate db limit fuel none).Perm db ∧
    ((runsPaginate db limit fuel none).map Run.runId).Nodup := by
  have hlen : (runsBelow (runsSortedDesc db) (jsStr none)).length ≤ fuel := by
    show (List.insertionSort runDescLe db).length ≤ fuel
    rw [(List.perm_insertionSort runDescLe db).length_eq]
    exact hf
  have h := runsPaginate_eq_below db hn limit h1 fuel none hlen
  have hperm : (runsPaginate db limit fuel none).Perm db := by
    rw [h]
    exact List.perm_insertionSort runDescLe db
  exact ⟨hperm, ((hperm.map Run.runId).nodup_iff).mpr hn⟩

theorem runs_pagination_exhaustive_witness :
    ((sampleRuns3.map Run.runId).Nodup ∧ 1 ≤ 1 ∧ sampleRuns3.length ≤ 3) ∧
    ((runsPaginate sampleRuns3 1 3 none).Perm sampleRuns3 ∧
      ((runsPaginate sampleRuns3 1 3 none).map Run.runId).Nodup) ∧
    ((runsPaginate sampleRuns3 2 3 none).Perm sampleRuns3 ∧
      ((runsPaginate sampleRuns3 2 3 none).map Run.runId).Nodup) ∧
    ((runsPaginate sampleRuns3 4 3 none).Perm sampleRuns3 ∧
      ((runsPaginate sampleRuns3 4 3 none).map Run.runId).Nodup) :=
  ⟨⟨by decide, by decide, by decide⟩,
    runs_pagination_exhaustive sampleRuns3 1 3 (by decide) (by decide) (by decide),
    runs_pagination_exhaustive sampleRuns3 2 3 (by decide) (by decide) (by decide),
    runs_pagination_exhaustive sampleRuns3 4 3 (by decide) (by decide) (by decide)⟩

/-! ## C8: shape of a single list call -/

/-- C8: one `list` call returns exactly the first `limit` matching rows (in
query order), `hasMore` holds exactly when more than `limit` rows match, the
returned cursor is the id of the last row of the truncated page (`null` when
the page is empty), and an empty match set yields
`{data: [], cursor: null, hasMore: false}` — for the Runs list and the Events
list alike. -/
theorem list_single_call_shape (rdb : List Run) (p : ListRunsParams)
    (edb : List Event) (q : ListEventsParams) :
    runsList rdb p =
      { data := (runsMatching rdb p).take ((p.pagination.bind Pagination.limit).getD 20)
        cursor := ((runsMatching rdb p).take
          ((p.pagination.bind Pagination.limit).getD 20)).getLast?.map Run.runId
        hasMore := decide ((p.pagination.bind Pagination.limit).getD 20
          < (runsMatching rdb p).length) } ∧
    (runsMatching rdb p = [] →
      runsList rdb p = { data := [], cursor := none, hasMore := false }) ∧
    eventsList edb q =
      { data := (eventsMatching edb q.runId (q.pagination.bind Pagination.cursor)
          ((q.pagination.bind Pagination.sortOrder).getD .asc)).take
          ((q.pagination.bind Pagination.limit).getD 100)
        cursor := ((eventsMatching edb q.runId (q.pagination.bind Pagination.cursor)
          ((q.pagination.bind Pagination.sortOrder).getD .asc)).take
          ((q.pagination.bind Pagination.limit).getD 100)).getLast?.map Event.eventId
        hasMore := decide ((q.pagination.bind Pagination.limit).getD 100
          < (eventsMatching edb q.runId (q.pagination.bind Pagination.cursor)
            ((q.pagination.bind Pagination.sortOrder).getD .asc)).length) } ∧
    (eventsMatching edb q.runId (q.pagination.bind Pagination.cursor)
        ((q.pagination.bind Pagination.sortOrder).getD .asc) = [] →
      eventsList edb q = { data := [], cursor := none, hasMore := false }) := by
  have hruns : runsList rdb p =
      { data := (runsMatching rdb p).take ((p.pagination.bind Pagination.limit).getD 20)
        cursor := ((runsMatching rdb p).take
          ((p.pagination.bind Pagination.limit).getD 20)).getLast?.map Run.runId
        hasMore := decide ((p.pagination.bind Pagination.limit).getD 20
          < (runsMatching rdb p).length) } := by
    simp only [runsList]
    rw [List.take_take, min_eq_left (Nat.le_succ _)]
    have hm : decide ((p.pagination.bind Pagination.limit).getD 20
          < ((runsMatching rdb p).take
            ((p.pagination.bind Pagination.limit).getD 20 + 1)).length)
        = decide ((p.pagination.bind Pagination.limit).getD 20
          < (runsMatching rdb p).length) := by
      rw [decide_eq_decide, List.length_take]
      omega
    rw [hm]
  have hevents : eventsList edb q =
      { data := (eventsMatching edb q.runId (q.pagination.bind Pagination.cursor)
          ((q.pagination.bind Pagination.sortOrder).getD .asc)).take
          ((q.pagination.bind Pagination.limit).getD 100)
        cursor := ((eventsMatching edb q.runId (q.pagination.bind Pagination.cursor)
          ((q.pagination.bind Pagination.sortOrder).getD .asc)).take
          ((q.pagination.bind Pagination.limit).getD 100)).getLast?.map Event.eventId
        hasMore := decide ((q.pagination.bind Pagination.limit).getD 100
          < (eventsMatching edb q.runId (q.pagination.bind Pagination.cursor)
            ((q.pagination.bind Pagination.sortOrder).getD .asc)).length) } := by
    simp only [eventsList]
    rw [List.take_take, min_eq_left (Nat.le_succ _)]
    have hm : decide ((q.pagination.bind Pagination.limit).getD 100
          < ((eventsMatching edb q.runId (q.pagination.bind Pagination.cursor)
            ((q.pagination.bind Pagination.sortOrder).getD .asc)).take
            ((q.pagination.bind Pagination.limit).getD 100 + 1)).length)
        = decide ((q.pagination.bind Pagination.limit).getD 100
          < (eventsMatching edb q.runId (q.pagination.bind Pagination.cursor)
            ((q.pagination.bind Pagination.sortOrder).getD .asc)).length) := by
      rw [decide_eq_decide, List.length_take]
      omega
    rw [hm]
  refine ⟨hruns, ?_, hevents, ?_⟩
  · intro hz
    rw [hruns, hz]
    simp
  · intro hz
    rw [hevents, hz]
    simp

theorem list_single_call_shape_witness :
    runsMatching ([] : List Run) { } = [] ∧
    runsList ([] : List Run) { } = { data := [], cursor := none, hasMore := false } ∧
    eventsMatching ([] : List Event) "wrun_a" none .asc = [] ∧
    eventsList ([] : List Event) ⟨"wrun_a", none⟩
      = { data := [], cursor := none, hasMore := false } :=
  ⟨rfl,
    (list_single_call_shape [] { } [] ⟨"wrun_a", none⟩).2.1 rfl,
    rfl,
    (list_single_call_shape [] { } [] ⟨"wrun_a", none⟩).2.2.2 rfl⟩

/-! ## C9: sortOrder handling and defaults -/

/-- C9 counterexample: `runs.list` called with `sortOrder = asc` on a
two-run table still returns the page ordered descending by id
(`["wrun_b", "wrun_a"]`), not ascending, so not every list call orders its
page in the requested direction. -/
theorem runs_sort_order_ignored_counterexample :
    (runsList [sampleRun "wrun_a" .pending none none,
        sampleRun "wrun_b" .pending none none]
      ⟨none, none, some ⟨some 10, none, some .asc⟩⟩).data.map Run.runId
      = ["wrun_b", "wrun_a"] ∧
    (["wrun_b", "wrun_a"] : List String) ≠ ["wrun_a", "wrun_b"] :=
  ⟨by decide, by decide⟩

/-- C9 amended: the Events list honors `sortOrder` (page ordered by event id
in the requested direction, matching cursor predicate, default `asc`, default
limit 100) and the spec-modelled Steps list does likewise with default limit
100, but the Runs list accepts and ignores `sortOrder`: its page is always
ordered descending by run id (`id < cursor` continuation), with default limit
20. -/
theorem list_sort_order_and_defaults (rdb : List Run) (wf : Option String)
    (st : Option RunStatus) (lim : Option Nat) (cur : Option String)
    (so1 so2 : Option SortOrder) (edb : List Event) (rid : String)
    (sdb : List Step) :
    runsList rdb ⟨wf, st, some ⟨lim, cur, so1⟩⟩
        = runsList rdb ⟨wf, st, some ⟨lim, cur, so2⟩⟩ ∧
    (runsList rdb ⟨wf, st, some ⟨lim, cur, so1⟩⟩).data.Sorted runDescLe ∧
    runsList rdb ⟨wf, st, some ⟨none, cur, so1⟩⟩
        = runsList rdb ⟨wf, st, some ⟨some 20, cur, so1⟩⟩ ∧
    (eventsList edb ⟨rid, some ⟨lim, cur, some .asc⟩⟩).data
        = (eventsMatching edb rid cur .asc).take (lim.getD 100) ∧
    (eventsList edb ⟨rid, some ⟨lim, cur, some .desc⟩⟩).data
        = (eventsMatching edb rid cur .desc).take (lim.getD 100) ∧
    (eventsList edb ⟨rid, some ⟨lim, cur, some .asc⟩⟩).data.Sorted eventAscLe ∧
    (eventsList edb ⟨rid, some ⟨lim, cur, some .desc⟩⟩).data.Sorted eventDescLe ∧
    eventsList edb ⟨rid, some ⟨lim, cur, none⟩⟩
        = eventsList edb ⟨rid, some ⟨lim, cur, some .asc⟩⟩ ∧
    eventsList edb ⟨rid, some ⟨none, cur, so1⟩⟩
        = eventsList edb ⟨rid, some ⟨some 100, cur, so1⟩⟩ ∧
    (stepsList sdb rid (some ⟨lim, cur, some .asc⟩)).data
        = (stepsMatching sdb rid cur .asc).take (lim.getD 100) ∧
    (stepsList sdb rid (some ⟨lim, cur, some .desc⟩)).data
        = (stepsMatching sdb rid cur .desc).take (lim.getD 100) ∧
    (stepsList sdb rid (some ⟨lim, cur, some .asc⟩)).data.Sorted stepAscLe ∧
    (stepsList sdb rid (some ⟨lim, cur, some .desc⟩)).data.Sorted stepDescLe ∧
    stepsList sdb rid (some ⟨none, cur, so1⟩)
        = stepsList sdb rid (some ⟨some 100, cur, so1⟩) := by
  refine ⟨rfl, ?_, rfl, ?_, ?_, ?_, ?_, rfl, rfl, ?_, ?_, ?_, ?_, rfl⟩
  · show (((runsMatching rdb ⟨wf, st, some ⟨lim, cur, so1⟩⟩).take
        (lim.getD 20 + 1)).take (lim.getD 20)).Sorted runDescLe
    exact ((List.sorted_insertionSort runDescLe _).take).take
  · show ((eventsMatching edb rid cur .asc).take (lim.getD 100 + 1)).take (lim.getD 100)
      = (eventsMatching edb rid cur .asc).take (lim.getD 100)
    rw [List.take_take, min_eq_left (Nat.le_succ _)]
  · show ((eventsMatching edb rid cur .desc).take (lim.getD 100 + 1)).take (lim.getD 100)
      = (eventsMatching edb rid cur .desc).take (lim.getD 100)
    rw [List.take_take, min_eq_left (Nat.le_succ _)]
  · show (((eventsMatching edb rid cur .asc).take
        (lim.getD 100 + 1)).take (lim.getD 100)).Sorted eventAscLe
    exact ((List.sorted_insertionSort eventAscLe _).take).take
  · show (((eventsMatching edb rid cur .desc).take
        (lim.getD 100 + 1)).take (lim.getD 100)).Sorted eventDescLe
    exact ((List.sorted_insertionSort eventDescLe _).take).take
  · show ((stepsMatching sdb rid cur .asc).take (lim.getD 100 + 1)).take (lim.getD 100)
      = (stepsMatching sdb rid cur .asc).take (lim.getD 100)
    rw [List.take_take, min_eq_left (Nat.le_succ _)]
  · show ((stepsMatching sdb rid cur .desc).take (lim.getD 100 + 1)).take (lim.getD 100)
      = (stepsMatching sdb rid cur .desc).take (lim.getD 100)
    rw [List.take_take, min_eq_left (Nat.le_succ _)]
  · show (((stepsMatching sdb rid cur .asc).take
        (lim.getD 100 + 1)).take (lim.getD 100)).Sorted stepAscLe
    exact ((List.sorted_insertionSort stepAscLe _).take).take
  · show (((stepsMatching sdb rid cur .desc).take
        (lim.getD 100 + 1)).take (lim.getD 100)).Sorted stepDescLe
    exact ((List.sorted_insertionSort stepDescLe _).take).take

end WorkflowCF
